import Mathlib

/-!
Verification development for the litebase backend IPC core.

The Go sources embedded here:
  backend/internal/protocol/message.go  (message model and constructors)
  backend/internal/ipc/server.go        (frame codec, dispatch, session loop,
                                         listener construction, Stop)
  backend/internal/server/server.go     (server construction and Shutdown)
  unnamed/part_000                      (a second ipc server variant whose
                                         readMessage uses the msgpack
                                         streaming decoder with no length
                                         header)

Modelling conventions:
  - bytes are Nat values kept below 256; a connection byte stream is List Nat;
  - time.Time and time.Duration are Nat (nanoseconds); time.Now() is threaded
    through as an explicit `now` parameter;
  - the msgpack library functions Marshal/Unmarshal are a `Codec` parameter
    (a pair of functions); a concrete executable msgpack model for the
    Message shape is given further below for witnesses;
  - Go `map[string]interface{}` payload data is modelled as an association
    list with string values (every message the repository constructs carries
    a nil payload map, modelled as []);
  - fallible Go calls return Except; io.ReadFull error distinction between
    EOF (zero bytes read) and ErrUnexpectedEOF (partial read) is kept.
-/

/-- Big-endian 4-byte encoding, as binary.BigEndian.PutUint32 after the Go
conversion uint32(n) (the division/mod structure makes the uint32 wrap
implicit: byte i of n equals byte i of n mod 2^32). -/
def putUint32BE (n : Nat) : List Nat :=
  [n / 16777216 % 256, n / 65536 % 256, n / 256 % 256, n % 256]

/-- binary.BigEndian.Uint32 on a byte list. -/
def beUint32 (l : List Nat) : Nat :=
  l.foldl (fun acc b => acc * 256 + b) 0

/-- Big-endian 8-byte encoding (used by the msgpack model for uint64). -/
def putUint64BE (n : Nat) : List Nat :=
  [n / 72057594037927936 % 256, n / 281474976710656 % 256,
   n / 1099511627776 % 256, n / 4294967296 % 256,
   n / 16777216 % 256, n / 65536 % 256, n / 256 % 256, n % 256]

/-- io.ReadFull error outcomes: EOF when no byte was available,
ErrUnexpectedEOF when some but not all requested bytes were available. -/
inductive IOErr where
  | eof
  | unexpectedEOF
deriving DecidableEq

/-- io.ReadFull(conn, buf) over a modelled byte stream: consume exactly n
bytes or fail. -/
def readFull (n : Nat) (s : List Nat) : Except IOErr (List Nat × List Nat) :=
  if n ≤ s.length then .ok (s.take n, s.drop n)
  else if s.length = 0 then .error .eof
  else .error .unexpectedEOF

/-- protocol.MessageType is a string type in Go. -/
abbrev MessageType := String

def MessageTypeHealthCheck : MessageType := "health_check"
def MessageTypeHealthResponse : MessageType := "health_response"
def MessageTypeDBConnect : MessageType := "db_connect"
def MessageTypeDBConnectResponse : MessageType := "db_connect_response"
def MessageTypeQuery : MessageType := "query"
def MessageTypeQueryResponse : MessageType := "query_response"
def MessageTypeError : MessageType := "error"

/-- protocol.Message: the wire envelope (id, type, timestamp, data).
Data models the msgpack-visible content of the map[string]interface{}
payload; the nil map is []. -/
structure Message where
  id : String
  type : MessageType
  timestamp : Nat
  data : List (String × String)
deriving DecidableEq

/-- protocol.generateID: a string identifier derived from the current time
(Go formats the time; the model renders the ambient clock in decimal). -/
def generateID (now : Nat) : String :=
  toString now

/-- protocol.NewMessage. -/
def NewMessage (msgType : MessageType) (data : List (String × String))
    (now : Nat) : Message :=
  { id := generateID now, type := msgType, timestamp := now, data := data }

/-- protocol.HealthCheckResponse: the embedded Message plus the Status,
Timestamp (Unix seconds) and Version struct fields. -/
structure HealthCheckResponse where
  message : Message
  status : String
  timestamp : Nat
  version : String
deriving DecidableEq

/-- protocol.NewHealthCheckResponse: the embedded Message is built with a
nil data map; status and version live only in the struct fields. -/
def NewHealthCheckResponse (status version : String) (now : Nat) :
    HealthCheckResponse :=
  { message := NewMessage MessageTypeHealthResponse [] now
  , status := status
  , timestamp := now
  , version := version }

/-- protocol.ErrorResponse: the embedded Message plus Error, Code and
Details struct fields. -/
structure ErrorResponse where
  message : Message
  error : String
  code : Nat
  details : String
deriving DecidableEq

/-- protocol.NewErrorResponse: the embedded Message is built with a nil
data map; the error text, code and details live only in the struct
fields. -/
def NewErrorResponse (err : String) (code : Nat) (details : String)
    (now : Nat) : ErrorResponse :=
  { message := NewMessage MessageTypeError [] now
  , error := err
  , code := code
  , details := details }

/-- The logger sink; the ipc server only requires it to be present. -/
inductive Logger where
  | mk
deriving DecidableEq

/-- ipc.Config. Durations in nanoseconds. -/
structure IpcConfig where
  socketPath : String
  pipeName : String
  logger : Option Logger
  debugMode : Bool
  readTimeout : Nat
  writeTimeout : Nat

def timeSecond : Nat := 1000000000

/-- ipc.MessageHandler: func(*protocol.Message) (*protocol.Message, error),
with the ambient clock threaded explicitly. -/
def MessageHandler := Nat → Message → Except String Message

abbrev HandlerMap := List (MessageType × MessageHandler)

/-- Go map lookup on the handler registry. -/
def findHandler (handlers : HandlerMap) (t : MessageType) :
    Option MessageHandler :=
  match handlers with
  | [] => none
  | (k, h) :: rest => if k = t then some h else findHandler rest t

/-- ipc.Server.handleHealthCheck: responds with
NewHealthCheckResponse("healthy", "1.0.0") but returns only the embedded
Message (response.Message), as the Go code does. -/
def handleHealthCheck : MessageHandler :=
  fun now _msg => .ok (NewHealthCheckResponse "healthy" "1.0.0" now).message

/-- ipc.Server.registerDefaultHandlers: only the health-check handler. -/
def defaultHandlers : HandlerMap :=
  [(MessageTypeHealthCheck, handleHealthCheck)]

/-- ipc.Server.handleMessage: dispatch on msg.Type; an unknown type yields
the embedded Message of NewErrorResponse(unknown-type error, 400,
"Unsupported message type") and a nil Go error. -/
def handleMessage (handlers : HandlerMap) (now : Nat) (msg : Message) :
    Except String Message :=
  match findHandler handlers msg.type with
  | none =>
      .ok (NewErrorResponse ("unknown message type: " ++ msg.type) 400
        "Unsupported message type" now).message
  | some h => h now msg

/-- ipc.Server: configuration (with defaults applied), handler registry,
and the listener once Start has bound one. -/
structure Listener where
  path : String
  unlinkOnClose : Bool
deriving DecidableEq

structure IpcServer where
  config : IpcConfig
  handlers : HandlerMap
  listener : Option Listener

/-- ipc.New: reject a nil logger, default zero timeouts to 30 seconds,
register the default handlers. -/
def ipcNew (config : IpcConfig) : Except String IpcServer :=
  match config.logger with
  | none => .error "logger is required"
  | some _ =>
      let config :=
        if config.readTimeout = 0 then
          { config with readTimeout := 30 * timeSecond }
        else config
      let config :=
        if config.writeTimeout = 0 then
          { config with writeTimeout := 30 * timeSecond }
        else config
      .ok { config := config, handlers := defaultHandlers, listener := none }

/-- server.Config. -/
structure ServerConfig where
  socketPath : String
  pipeName : String
  port : Nat
  logger : Option Logger
  debugMode : Bool

structure MainServer where
  config : ServerConfig
  ipc : IpcServer

/-- server.New: reject a nil logger, then build the inner ipc server from
the translated configuration (timeouts are not forwarded, so they are
zero and ipc.New applies the defaults). -/
def serverNew (config : ServerConfig) : Except String MainServer :=
  match config.logger with
  | none => .error "logger is required"
  | some _ =>
      match ipcNew { socketPath := config.socketPath
                   , pipeName := config.pipeName
                   , logger := config.logger
                   , debugMode := config.debugMode
                   , readTimeout := 0
                   , writeTimeout := 0 } with
      | .error e => .error ("failed to create IPC server: " ++ e)
      | .ok ipcServer => .ok { config := config, ipc := ipcServer }

/-- One connection: its unread input bytes, the bytes written to the peer
so far, and the read/write deadlines currently set on it. -/
structure Conn where
  input : List Nat
  output : List Nat
  readDeadline : Option Nat
  writeDeadline : Option Nat
deriving DecidableEq

/-- The msgpack library boundary: Marshal and Unmarshal for Message. -/
structure Codec where
  marshal : Message → List Nat
  unmarshal : List Nat → Option Message

/-- The three failure classes of ipc.Server.readMessage, matching its three
wrapped errors: the length-header read, the payload read (both framing
failures), and msgpack.Unmarshal (a decode failure). -/
inductive ReadMsgErr where
  | headerRead (e : IOErr)
  | payloadRead (e : IOErr)
  | unmarshal
deriving DecidableEq

/-- ipc.Server.readMessage: set the read deadline unless in debug mode,
read a 4-byte big-endian length header, read exactly that many payload
bytes, then msgpack-unmarshal the payload. -/
def readMessage (cfg : IpcConfig) (codec : Codec) (now : Nat) (c : Conn) :
    Except ReadMsgErr (Message × Conn) :=
  let c1 := if cfg.debugMode = false then
      { c with readDeadline := some (now + cfg.readTimeout) }
    else c
  match readFull 4 c1.input with
  | .error e => .error (.headerRead e)
  | .ok (lengthBytes, rest) =>
      let length := beUint32 lengthBytes
      match readFull length rest with
      | .error e => .error (.payloadRead e)
      | .ok (data, rest2) =>
          match codec.unmarshal data with
          | none => .error .unmarshal
          | some msg => .ok (msg, { c1 with input := rest2 })

/-- ipc.Server.writeMessage: set the write deadline unless in debug mode,
msgpack-marshal the message, then write the 4-byte big-endian length of
the serialized form followed by the serialized bytes. Writes to the
modelled connection always succeed. -/
def writeMessage (cfg : IpcConfig) (codec : Codec) (now : Nat) (c : Conn)
    (m : Message) : Conn :=
  let c1 := if cfg.debugMode = false then
      { c with writeDeadline := some (now + cfg.writeTimeout) }
    else c
  let data := codec.marshal m
  { c1 with output := c1.output ++ putUint32BE data.length ++ data }

/-- The frame the codec puts on the wire for one message: 4-byte big-endian
length header followed by the marshalled payload (the byte effect of
writeMessage, and the frame the test client in cmd/test-client/main.go
sends). -/
def frameBytes (codec : Codec) (m : Message) : List Nat :=
  putUint32BE (codec.marshal m).length ++ codec.marshal m

/-- The response the session loop body selects for a decoded message: the
dispatch result on success, otherwise the embedded Message of
NewErrorResponse(handler error, 500, "Internal server error"). -/
def respondMessage (handlers : HandlerMap) (now : Nat) (msg : Message) :
    Message :=
  match handleMessage handlers now msg with
  | .ok r => r
  | .error e =>
      (NewErrorResponse e 500 "Internal server error" now).message

/-- ipc.Server.handleConnection, fuelled. Each iteration: observe the
cancellation signal, read one message (any read error ends the session;
the Go io.EOF comparison is against a wrapped error, so both error
branches return), dispatch, write the selected response, loop. The
result is everything written to the peer. Fuel exceeding the input
length is enough, since every successful read consumes at least the
4-byte header. -/
def handleConnLoop (cfg : IpcConfig) (codec : Codec) (handlers : HandlerMap)
    (now : Nat) (cancelled : Bool) : Nat → Conn → List Nat
  | 0, c => c.output
  | fuel + 1, c =>
      if cancelled then c.output
      else
        match readMessage cfg codec now c with
        | .error _ => c.output
        | .ok (msg, c2) =>
            handleConnLoop cfg codec handlers now cancelled fuel
              (writeMessage cfg codec now c2 (respondMessage handlers now msg))

/-- ipc.Server.handleConnection on a connection with a finite input
stream. -/
def handleConnection (cfg : IpcConfig) (codec : Codec) (handlers : HandlerMap)
    (now : Nat) (cancelled : Bool) (c : Conn) : List Nat :=
  handleConnLoop cfg codec handlers now cancelled (c.input.length + 1) c

/-!
A concrete executable model of the msgpack serialization of Message, used
to instantiate the Codec parameter in witnesses and to embed the second
server variant (unnamed/part_000), whose readMessage feeds the raw
connection stream to the msgpack streaming decoder with no length header.
Strings are treated as ASCII byte sequences; the timestamp is modelled as
a msgpack uint64 and the nil data map as msgpack nil.
-/

/-- Bytes of a string (ASCII model: each char is one byte). -/
def strBytes (s : String) : List Nat :=
  s.data.map Char.toNat

/-- String from bytes, inverse of strBytes on ASCII strings. -/
def strOfBytes (l : List Nat) : String :=
  ⟨l.map Char.ofNat⟩

/-- msgpack str encoding: fixstr below 32 bytes, str8 below 256, str16
otherwise. -/
def encodeStr (s : String) : List Nat :=
  let bs := strBytes s
  if bs.length < 32 then (160 + bs.length) :: bs
  else if bs.length < 256 then 217 :: bs.length :: bs
  else 218 :: bs.length / 256 % 256 :: bs.length % 256 :: bs

/-- msgpack str decoding (fixstr and str8 cases of the model). -/
def decodeStr (s : List Nat) : Option (String × List Nat) :=
  match s with
  | [] => none
  | b :: rest =>
      if 160 ≤ b ∧ b ≤ 191 then
        let n := b - 160
        if n ≤ rest.length then some (strOfBytes (rest.take n), rest.drop n)
        else none
      else if b = 217 then
        match rest with
        | [] => none
        | n :: rest2 =>
            if n ≤ rest2.length then
              some (strOfBytes (rest2.take n), rest2.drop n)
            else none
      else none

/-- msgpack unsigned integer encoding: positive fixint, uint8, uint16,
uint32, uint64. -/
def encodeUint (n : Nat) : List Nat :=
  if n < 128 then [n]
  else if n < 256 then [204, n]
  else if n < 65536 then 205 :: n / 256 :: [n % 256]
  else if n < 4294967296 then 206 :: putUint32BE n
  else 207 :: putUint64BE n

/-- msgpack unsigned integer decoding for the encodings above. -/
def decodeUint (s : List Nat) : Option (Nat × List Nat) :=
  match s with
  | [] => none
  | b :: rest =>
      if b < 128 then some (b, rest)
      else if b = 204 then
        match rest with
        | v :: rest2 => some (v, rest2)
        | [] => none
      else if b = 205 then
        match rest with
        | v1 :: v2 :: rest2 => some (v1 * 256 + v2, rest2)
        | _ => none
      else if b = 206 then
        match rest with
        | v1 :: v2 :: v3 :: v4 :: rest2 =>
            some (beUint32 [v1, v2, v3, v4], rest2)
        | _ => none
      else if b = 207 then
        match rest with
        | v1 :: v2 :: v3 :: v4 :: v5 :: v6 :: v7 :: v8 :: rest2 =>
            some (beUint32 [v1, v2, v3, v4] * 4294967296
              + beUint32 [v5, v6, v7, v8], rest2)
        | _ => none
      else none

/-- msgpack encoding of the payload data map: a nil Go map marshals as
msgpack nil; otherwise a fixmap of string entries. -/
def encodeDataMap (d : List (String × String)) : List Nat :=
  match d with
  | [] => [192]
  | _ =>
      (128 + d.length % 16)
        :: (d.map (fun p => encodeStr p.1 ++ encodeStr p.2)).flatten

/-- Decode n string-to-string map entries. -/
def decodePairs : Nat → List Nat → Option (List (String × String) × List Nat)
  | 0, s => some ([], s)
  | n + 1, s =>
      match decodeStr s with
      | none => none
      | some (k, s1) =>
          match decodeStr s1 with
          | none => none
          | some (v, s2) =>
              match decodePairs n s2 with
              | none => none
              | some (l, s3) => some ((k, v) :: l, s3)

/-- msgpack decoding of the payload data map (nil or fixmap). -/
def decodeDataMap (s : List Nat) : Option (List (String × String) × List Nat) :=
  match s with
  | [] => none
  | b :: rest =>
      if b = 192 then some ([], rest)
      else if 128 ≤ b ∧ b ≤ 143 then decodePairs (b - 128) rest
      else none

/-- msgpack encoding of a Message: a fixmap of its four fields in struct
order (id, type, timestamp, data). -/
def encodeMessage (m : Message) : List Nat :=
  132 :: (encodeStr "id" ++ encodeStr m.id
    ++ encodeStr "type" ++ encodeStr m.type
    ++ encodeStr "timestamp" ++ encodeUint m.timestamp
    ++ encodeStr "data" ++ encodeDataMap m.data)

/-- Consume one expected map key. -/
def expectStr (k : String) (s : List Nat) : Option (List Nat) :=
  match decodeStr s with
  | none => none
  | some (k2, rest) => if k2 = k then some rest else none

/-- msgpack streaming decode of one Message value from the front of a byte
stream: a value that is not a four-entry map of the expected shape is a
decode failure, as when the Go library decodes into the Message struct. -/
def decodeMessageBytes (s : List Nat) : Option (Message × List Nat) := do
  let s ← match s with
    | b :: rest => if b = 132 then some rest else none
    | [] => none
  let s ← expectStr "id" s
  let (idv, s) ← decodeStr s
  let s ← expectStr "type" s
  let (tyv, s) ← decodeStr s
  let s ← expectStr "timestamp" s
  let (tsv, s) ← decodeUint s
  let s ← expectStr "data" s
  let (dv, s) ← decodeDataMap s
  return ({ id := idv, type := tyv, timestamp := tsv, data := dv }, s)

/-- msgpack.Unmarshal on a complete payload buffer: decode one Message
value. -/
def unmarshalMessage (bs : List Nat) : Option Message :=
  match decodeMessageBytes bs with
  | some (m, _) => some m
  | none => none

/-- The concrete codec: the msgpack model standing in for
msgpack.Marshal/Unmarshal. -/
def mpCodec : Codec :=
  { marshal := encodeMessage, unmarshal := unmarshalMessage }

/-- readMessage of the second server variant (unnamed/part_000):
msgpack.NewDecoder(conn).Decode(&msg) — the stream itself is consumed by
the msgpack streaming decoder, with no 4-byte length header and no
deadline handling. -/
def readMessageV2 (c : Conn) : Except Unit (Message × Conn) :=
  match decodeMessageBytes c.input with
  | none => .error ()
  | some (msg, rest) => .ok (msg, { c with input := rest })

/-!
Filesystem and listener model for createUnixSocketListener and the
pre-accept phase of Start.
-/

/-- Failure classes of the modelled filesystem calls: the one error class
os.IsNotExist recognizes versus any other removal failure. -/
inductive OsErr where
  | notExist
  | permission
deriving DecidableEq

/-- The modelled filesystem: existing files and directories, plus the sets
of paths on which removal, directory creation, or binding fails with a
non-notExist error. -/
structure FS where
  files : List String
  dirs : List String
  removeFail : List String
  mkdirFail : List String
  bindFail : List String
deriving DecidableEq

/-- os.Remove. -/
def osRemove (fs : FS) (p : String) : Except OsErr FS :=
  if p ∈ fs.removeFail then .error .permission
  else if p ∈ fs.files then .ok { fs with files := fs.files.erase p }
  else .error .notExist

/-- filepath.Dir for slash-separated paths. -/
def parentDir (p : String) : String :=
  match (p.splitOn "/").dropLast with
  | [] => "."
  | parts => String.intercalate "/" parts

/-- ipc.Server.createUnixSocketListener: default the socket path into the
temporary directory, remove a pre-existing file at the path (a notExist
failure is ignored, any other removal failure aborts), create the parent
directory, bind the unix listener there, and set unlink-on-close. -/
def createUnixSocketListener (cfg : IpcConfig) (fs : FS) :
    Except String (Listener × FS) :=
  let socketPath :=
    if cfg.socketPath = "" then "/tmp/litebase.sock" else cfg.socketPath
  let step1 : Except String FS :=
    match osRemove fs socketPath with
    | .ok fs1 => .ok fs1
    | .error .notExist => .ok fs
    | .error .permission => .error "failed to remove existing socket"
  match step1 with
  | .error e => .error e
  | .ok fs1 =>
      if parentDir socketPath ∈ fs1.mkdirFail then
        .error "failed to create socket directory"
      else
        let fs2 := { fs1 with dirs := parentDir socketPath :: fs1.dirs }
        if socketPath ∈ fs2.bindFail then
          .error "failed to create Unix socket listener"
        else
          .ok ({ path := socketPath, unlinkOnClose := true },
            { fs2 with files := socketPath :: fs2.files })

/-- The pre-accept phase of ipc.Server.Start on a non-Windows platform:
create the unix listener; any failure is wrapped and returned without
installing a listener, so the server does not partially start. -/
def startListen (srv : IpcServer) (fs : FS) :
    Except String (IpcServer × FS) :=
  match createUnixSocketListener srv.config fs with
  | .error e => .error ("failed to create listener: " ++ e)
  | .ok (l, fs1) => .ok ({ srv with listener := some l }, fs1)

/-!
Lifecycle model for ipc.Server.Stop and server.Server.Shutdown.
-/

/-- The running server as the shutdown path sees it: the shared
cancellation flag, whether the listener is still accepting, the sessions
currently active, and which session connections shutdown itself has
force-closed. -/
structure RunState where
  ctxCancelled : Bool
  listenerOpen : Bool
  activeSessions : List Nat
  forceClosedConns : List Nat
deriving DecidableEq

/-- ipc.Server.Stop: cancel the context and close the listener. Nothing
else: sessions are neither tracked, waited for, nor closed here. -/
def stopServer (s : RunState) : Except String Unit × RunState :=
  let s1 := { s with ctxCancelled := true }
  (.ok (), { s1 with listenerOpen := false })

/-- server.Server.Shutdown: run Stop in a goroutine and race its completion
against the context deadline. Stop performs no blocking wait, so its
completion always wins the race and Shutdown returns exactly the result
of Stop; the timeout branch is unreachable. -/
def shutdownServer (s : RunState) : Except String Unit × RunState :=
  match stopServer s with
  | (.ok _, s1) => (.ok (), s1)
  | (.error e, s1) => (.error ("failed to stop IPC server: " ++ e), s1)

/-!
Concrete fixtures for witnesses and counterexamples.
-/

deriving instance DecidableEq for Except

/-- A debug-mode configuration (no deadlines are set). -/
def debugCfg : IpcConfig := ⟨"", "", some Logger.mk, true, 0, 0⟩

/-- A non-debug configuration with explicit timeouts. -/
def prodCfg : IpcConfig := ⟨"", "", some Logger.mk, false, 5, 9⟩

/-- A non-debug configuration with zero timeouts (so ipc.New applies the
30-second defaults). -/
def prodCfg0 : IpcConfig := ⟨"", "", some Logger.mk, false, 0, 0⟩

/-- A client health-check request. -/
def healthMsg : Message := ⟨"client-1", "health_check", 5, []⟩

/-- A client request with a type absent from the handler registry. -/
def bogusMsg : Message := ⟨"client-2", "bogus_type", 6, []⟩

/-- A client request aimed at a failing handler. -/
def boomMsg : Message := ⟨"client-3", "boom", 8, []⟩

/-- A registry holding one handler that always fails. -/
def failingHandlers : HandlerMap :=
  [("boom", fun _ _ => .error "boom failed")]

/-!
Codec lemmas.
-/

theorem putUint32BE_length (n : Nat) : (putUint32BE n).length = 4 := rfl

theorem beUint32_putUint32BE (n : Nat) (h : n < 4294967296) :
    beUint32 (putUint32BE n) = n := by
  simp only [putUint32BE, beUint32, List.foldl]
  omega

theorem readFull_exact (xs ys : List Nat) :
    readFull xs.length (xs ++ ys) = .ok (xs, ys) := by
  simp [readFull]

/-- Reading one well-formed frame from the front of the stream: the read
deadline is set unless in debug mode, and exactly the frame is
consumed. -/
theorem readMessage_frame (cfg : IpcConfig) (codec : Codec) (now : Nat)
    (m : Message) (t o : List Nat) (rd wd : Option Nat)
    (hinv : codec.unmarshal (codec.marshal m) = some m)
    (hlen : (codec.marshal m).length < 4294967296) :
    readMessage cfg codec now ⟨frameBytes codec m ++ t, o, rd, wd⟩
      = .ok (m, ⟨t, o,
          if cfg.debugMode = false then some (now + cfg.readTimeout) else rd,
          wd⟩) := by
  have h4 : readFull 4 ((frameBytes codec m ++ t)) =
      .ok (putUint32BE (codec.marshal m).length, codec.marshal m ++ t) := by
    have := readFull_exact (putUint32BE (codec.marshal m).length)
      (codec.marshal m ++ t)
    simpa [frameBytes, putUint32BE_length] using this
  have hpay : readFull (codec.marshal m).length (codec.marshal m ++ t)
      = .ok (codec.marshal m, t) := readFull_exact _ _
  by_cases hdbg : cfg.debugMode = false
  · simp [readMessage, hdbg, h4, beUint32_putUint32BE _ hlen, hpay, hinv]
  · simp [readMessage, hdbg, h4, beUint32_putUint32BE _ hlen, hpay, hinv]

/-- The byte effect of writeMessage: one frame appended to the output, the
input untouched, the write deadline set unless in debug mode. -/
theorem writeMessage_eq (cfg : IpcConfig) (codec : Codec) (now : Nat)
    (c : Conn) (m : Message) :
    writeMessage cfg codec now c m
      = ⟨c.input, c.output ++ frameBytes codec m, c.readDeadline,
          if cfg.debugMode = false then some (now + cfg.writeTimeout)
          else c.writeDeadline⟩ := by
  by_cases hdbg : cfg.debugMode = false
  · simp [writeMessage, hdbg, frameBytes]
  · simp [writeMessage, hdbg, frameBytes]

/-- C1 — Round-trip law of the frame codec: the bytes writeMessage produces
for a Message m, fed to readMessage (under any server configuration and
clock), decode to m itself — same id, type, timestamp and data — and
consume exactly the frame, provided the serializer is inverted by the
deserializer on m and the serialized form fits the 4-byte length
header. -/
theorem readMessage_writeMessage_roundtrip
    (cfgW cfgR : IpcConfig) (codec : Codec) (nowW nowR : Nat)
    (cW cR : Conn) (m : Message) (rest : List Nat)
    (hinv : codec.unmarshal (codec.marshal m) = some m)
    (hlen : (codec.marshal m).length < 4294967296)
    (hout : cW.output = [])
    (hin : cR.input = (writeMessage cfgW codec nowW cW m).output ++ rest) :
    ∃ c2, readMessage cfgR codec nowR cR = .ok (m, c2) ∧ c2.input = rest := by
  obtain ⟨i, o, rd, wd⟩ := cR
  have hframe : (writeMessage cfgW codec nowW cW m).output
      = frameBytes codec m := by
    rw [writeMessage_eq]; simp [hout]
  simp only [hframe] at hin
  subst hin
  exact ⟨_, readMessage_frame cfgR codec nowR m rest o rd wd hinv hlen, rfl⟩

theorem readFull_ok_inv {n : Nat} {s a b : List Nat}
    (h : readFull n s = .ok (a, b)) :
    a = s.take n ∧ b = s.drop n ∧ n ≤ s.length := by
  unfold readFull at h
  split at h
  next hle =>
    simp only [Except.ok.injEq, Prod.mk.injEq] at h
    exact ⟨h.1.symm, h.2.symm, hle⟩
  next =>
    split at h <;> simp at h

theorem readMessage_nil (cfg : IpcConfig) (codec : Codec) (now : Nat)
    (o : List Nat) (rd wd : Option Nat) :
    readMessage cfg codec now ⟨[], o, rd, wd⟩
      = .error (.headerRead .eof) := by
  by_cases hdbg : cfg.debugMode = false <;>
    simp [readMessage, hdbg, readFull]

/-- What a successful readMessage does to the connection: output untouched,
at least the 4 header bytes consumed, the read deadline set exactly when
not in debug mode, the write deadline untouched. -/
theorem readMessage_ok_inv (cfg : IpcConfig) (codec : Codec) (now : Nat)
    (c : Conn) (msg : Message) (c2 : Conn)
    (h : readMessage cfg codec now c = .ok (msg, c2)) :
    c2.output = c.output ∧ c2.input.length + 4 ≤ c.input.length ∧
    c2.readDeadline = (if cfg.debugMode = false then
      some (now + cfg.readTimeout) else c.readDeadline) ∧
    c2.writeDeadline = c.writeDeadline := by
  obtain ⟨i, o, rd, wd⟩ := c
  by_cases hdbg : cfg.debugMode = false <;>
    simp only [readMessage, hdbg, Bool.not_eq_false, if_true, if_false,
      ite_true, ite_false, Bool.true_eq_false] at h
  case pos =>
    split at h
    next => cases h
    next lb rest heq =>
      obtain ⟨-, hrest, hle⟩ := readFull_ok_inv heq
      split at h
      next => cases h
      next data rest2 heq2 =>
        obtain ⟨-, hrest2, -⟩ := readFull_ok_inv heq2
        split at h
        next => cases h
        next m2 hu =>
          simp only [Except.ok.injEq, Prod.mk.injEq] at h
          obtain ⟨-, hc2⟩ := h
          subst hc2
          refine ⟨rfl, ?_, by simp [hdbg], rfl⟩
          have h1 : rest2.length ≤ rest.length := by
            subst hrest2; simp [Nat.sub_le]
          have h2 : rest.length = i.length - 4 := by
            subst hrest; simp
          simp only [List.length_drop] at h1 h2 ⊢
          omega
  case neg =>
    split at h
    next => cases h
    next lb rest heq =>
      obtain ⟨-, hrest, hle⟩ := readFull_ok_inv heq
      split at h
      next => cases h
      next data rest2 heq2 =>
        obtain ⟨-, hrest2, -⟩ := readFull_ok_inv heq2
        split at h
        next => cases h
        next m2 hu =>
          simp only [Except.ok.injEq, Prod.mk.injEq] at h
          obtain ⟨-, hc2⟩ := h
          subst hc2
          refine ⟨rfl, ?_, by simp [hdbg], rfl⟩
          have h1 : rest2.length ≤ rest.length := by
            subst hrest2; simp [Nat.sub_le]
          have h2 : rest.length = i.length - 4 := by
            subst hrest; simp
          simp only [List.length_drop] at h1 h2 ⊢
          omega

/-- One successful iteration of the session loop. -/
theorem handleConnLoop_step (cfg : IpcConfig) (codec : Codec)
    (handlers : HandlerMap) (now : Nat) (fuel : Nat) (c : Conn)
    (msg : Message) (c2 : Conn)
    (h : readMessage cfg codec now c = .ok (msg, c2)) :
    handleConnLoop cfg codec handlers now false (fuel + 1) c
      = handleConnLoop cfg codec handlers now false fuel
          (writeMessage cfg codec now c2 (respondMessage handlers now msg))
    := by
  simp [handleConnLoop, h]

/-- A failed read ends the session with the output written so far. -/
theorem handleConnLoop_stop (cfg : IpcConfig) (codec : Codec)
    (handlers : HandlerMap) (now : Nat) (fuel : Nat) (c : Conn)
    (e : ReadMsgErr) (h : readMessage cfg codec now c = .error e) :
    handleConnLoop cfg codec handlers now false (fuel + 1) c = c.output := by
  simp [handleConnLoop, h]

/-- The session loop only ever appends to the bytes already written. -/
theorem handleConnLoop_output_grows (cfg : IpcConfig) (codec : Codec)
    (handlers : HandlerMap) (now : Nat) :
    ∀ (fuel : Nat) (c : Conn), ∃ t,
      handleConnLoop cfg codec handlers now false fuel c
        = c.output ++ t := by
  intro fuel
  induction fuel with
  | zero => exact fun c => ⟨[], by simp [handleConnLoop]⟩
  | succ f ih =>
    intro c
    cases hr : readMessage cfg codec now c with
    | error e =>
        exact ⟨[], by simp [handleConnLoop_stop cfg codec handlers now f c e hr]⟩
    | ok p =>
      obtain ⟨msg, c2⟩ := p
      obtain ⟨t, ht⟩ :=
        ih (writeMessage cfg codec now c2 (respondMessage handlers now msg))
      have ho : c2.output = c.output :=
        (readMessage_ok_inv cfg codec now c msg c2 hr).1
      refine ⟨frameBytes codec (respondMessage handlers now msg) ++ t, ?_⟩
      rw [handleConnLoop_step cfg codec handlers now f c msg c2 hr, ht,
        writeMessage_eq]
      simp [ho]

/-- Driving the loop over a sequence of well-formed request frames yields
exactly the corresponding response frames, in order. -/
theorem handleConnLoop_frames (cfg : IpcConfig) (codec : Codec)
    (handlers : HandlerMap) (now : Nat) :
    ∀ (ms : List Message) (fuel : Nat) (o : List Nat) (rd wd : Option Nat),
    (∀ m ∈ ms, codec.unmarshal (codec.marshal m) = some m) →
    (∀ m ∈ ms, (codec.marshal m).length < 4294967296) →
    ((ms.map (frameBytes codec)).flatten).length < fuel →
    handleConnLoop cfg codec handlers now false fuel
        ⟨(ms.map (frameBytes codec)).flatten, o, rd, wd⟩
      = o ++ (ms.map
          (fun m => frameBytes codec (respondMessage handlers now m))).flatten
    := by
  intro ms
  induction ms with
  | nil =>
    intro fuel o rd wd _ _ hfuel
    match fuel, hfuel with
    | fuel + 1, _ =>
      have hnil := readMessage_nil cfg codec now o rd wd
      simp [handleConnLoop_stop cfg codec handlers now fuel _ _ hnil]
  | cons m rest ih =>
    intro fuel o rd wd hinv hlen hfuel
    have hm : codec.unmarshal (codec.marshal m) = some m := hinv m (by simp)
    have hml : (codec.marshal m).length < 4294967296 := hlen m (by simp)
    have hframelen : (frameBytes codec m).length
        = 4 + (codec.marshal m).length := by
      simp [frameBytes, putUint32BE]; omega
    match fuel with
    | f + 1 =>
      have hread := readMessage_frame cfg codec now m
        ((rest.map (frameBytes codec)).flatten) o rd wd hm hml
      simp only [List.map_cons, List.flatten_cons] at hfuel ⊢
      rw [handleConnLoop_step cfg codec handlers now f _ _ _ hread,
        writeMessage_eq]
      have hrec := ih f
        (o ++ frameBytes codec (respondMessage handlers now m))
        (if cfg.debugMode = false then some (now + cfg.readTimeout) else rd)
        (if cfg.debugMode = false then some (now + cfg.writeTimeout) else wd)
        (fun x hx => hinv x (by simp [hx]))
        (fun x hx => hlen x (by simp [hx]))
        (by
          simp only [List.length_append] at hfuel
          omega)
      simpa [List.append_assoc] using hrec

theorem readFull_short {n : Nat} {s : List Nat} (h : s.length < n) :
    readFull n s = .error (if s.length = 0 then .eof else .unexpectedEOF) := by
  unfold readFull
  rw [if_neg (by omega)]
  by_cases h0 : s.length = 0 <;> simp [h0]

/-- C8 — Per-connection ordering: the session processes its input strictly
synchronously, so a peer that sends the request frames R1..Rn in
sequence on one connection receives exactly the corresponding response
frames, in the same order, appended after whatever was already
written. -/
theorem perConnection_ordering (cfg : IpcConfig) (codec : Codec)
    (handlers : HandlerMap) (now : Nat) (ms : List Message) (o : List Nat)
    (rd wd : Option Nat)
    (hinv : ∀ m ∈ ms, codec.unmarshal (codec.marshal m) = some m)
    (hlen : ∀ m ∈ ms, (codec.marshal m).length < 4294967296) :
    handleConnection cfg codec handlers now false
        ⟨(ms.map (frameBytes codec)).flatten, o, rd, wd⟩
      = o ++ (ms.map
          (fun m => frameBytes codec (respondMessage handlers now m))).flatten
    := by
  unfold handleConnection
  exact handleConnLoop_frames cfg codec handlers now ms _ o rd wd hinv hlen
    (Nat.lt_succ_self _)

theorem perConnection_ordering_witness :
    (∀ m ∈ [healthMsg, bogusMsg],
      mpCodec.unmarshal (mpCodec.marshal m) = some m) ∧
    (∀ m ∈ [healthMsg, bogusMsg], (mpCodec.marshal m).length < 4294967296) ∧
    handleConnection debugCfg mpCodec defaultHandlers 7 false
        ⟨([healthMsg, bogusMsg].map (frameBytes mpCodec)).flatten, [],
          none, none⟩
      = [] ++ ([healthMsg, bogusMsg].map
          (fun m => frameBytes mpCodec
            (respondMessage defaultHandlers 7 m))).flatten :=
  ⟨by decide, by decide,
    perConnection_ordering debugCfg mpCodec defaultHandlers 7
      [healthMsg, bogusMsg] [] none none (by decide) (by decide)⟩

/-- C5 — Handler failure: when the handler of a decoded request fails, the
session synthesizes NewErrorResponse(failure text, 500,
"Internal server error") — whose code is 500 and whose error is the
failure description — and the frame of its message is written to the
peer before anything else happens on the connection: the session does
not silently vanish after a successfully decoded frame. -/
theorem handlerFailure_errorResponse (cfg : IpcConfig) (codec : Codec)
    (handlers : HandlerMap) (now : Nat) (c : Conn) (msg : Message) (c2 : Conn)
    (e : String)
    (hread : readMessage cfg codec now c = .ok (msg, c2))
    (hfail : handleMessage handlers now msg = .error e) :
    (NewErrorResponse e 500 "Internal server error" now).code = 500 ∧
    (NewErrorResponse e 500 "Internal server error" now).error = e ∧
    ∃ t, handleConnection cfg codec handlers now false c
      = c.output
        ++ frameBytes codec
            (NewErrorResponse e 500 "Internal server error" now).message
        ++ t := by
  refine ⟨rfl, rfl, ?_⟩
  have hresp : respondMessage handlers now msg
      = (NewErrorResponse e 500 "Internal server error" now).message := by
    simp [respondMessage, hfail]
  have ho : c2.output = c.output :=
    (readMessage_ok_inv cfg codec now c msg c2 hread).1
  unfold handleConnection
  rw [handleConnLoop_step cfg codec handlers now c.input.length c msg c2 hread]
  obtain ⟨t, ht⟩ := handleConnLoop_output_grows cfg codec handlers now
    c.input.length (writeMessage cfg codec now c2 (respondMessage handlers now msg))
  refine ⟨t, ?_⟩
  rw [ht, writeMessage_eq]
  simp [ho, hresp, List.append_assoc]

theorem handlerFailure_errorResponse_witness :
    readMessage debugCfg mpCodec 8 ⟨frameBytes mpCodec boomMsg, [], none, none⟩
      = .ok (boomMsg, ⟨[], [], none, none⟩) ∧
    handleMessage failingHandlers 8 boomMsg = .error "boom failed" ∧
    ((NewErrorResponse "boom failed" 500 "Internal server error" 8).code = 500 ∧
     (NewErrorResponse "boom failed" 500 "Internal server error" 8).error
        = "boom failed" ∧
     ∃ t, handleConnection debugCfg mpCodec failingHandlers 8 false
        ⟨frameBytes mpCodec boomMsg, [], none, none⟩
      = (⟨frameBytes mpCodec boomMsg, [], none, none⟩ : Conn).output
        ++ frameBytes mpCodec
            (NewErrorResponse "boom failed" 500 "Internal server error" 8).message
        ++ t) :=
  ⟨by decide, by decide,
    handlerFailure_errorResponse debugCfg mpCodec failingHandlers 8
      ⟨frameBytes mpCodec boomMsg, [], none, none⟩ boomMsg
      ⟨[], [], none, none⟩ "boom failed" (by decide) (by decide)⟩

theorem readMessage_writeMessage_roundtrip_witness :
    mpCodec.unmarshal (mpCodec.marshal healthMsg) = some healthMsg ∧
    (mpCodec.marshal healthMsg).length < 4294967296 ∧
    (⟨[], [], none, none⟩ : Conn).output = [] ∧
    (∃ c2, readMessage debugCfg mpCodec 9
        ⟨(writeMessage debugCfg mpCodec 9 ⟨[], [], none, none⟩
            healthMsg).output ++ [], [], none, none⟩
      = .ok (healthMsg, c2) ∧ c2.input = []) :=
  ⟨by decide, by decide, rfl,
    readMessage_writeMessage_roundtrip debugCfg debugCfg mpCodec 9 9
      ⟨[], [], none, none⟩ _ healthMsg [] (by decide) (by decide) rfl rfl⟩

/-- C2 — evaluation of the health-check path at its failing input: the
dispatch result for a health_check message is only the embedded Message
of NewHealthCheckResponse("healthy", "1.0.0"); its type is
health_response but its data map is empty, and the frame the session
writes to the peer is the frame of that data-less message, so neither
the status "healthy" nor the version "1.0.0" (which sit only in the
discarded struct fields) is observable by the peer. -/
theorem healthCheck_fields_dropped :
    handleMessage defaultHandlers 7 healthMsg
      = .ok (NewHealthCheckResponse "healthy" "1.0.0" 7).message ∧
    (NewHealthCheckResponse "healthy" "1.0.0" 7).status = "healthy" ∧
    (NewHealthCheckResponse "healthy" "1.0.0" 7).version = "1.0.0" ∧
    (NewHealthCheckResponse "healthy" "1.0.0" 7).message.type
      = MessageTypeHealthResponse ∧
    (NewHealthCheckResponse "healthy" "1.0.0" 7).message.data = [] ∧
    handleConnection debugCfg mpCodec defaultHandlers 7 false
        ⟨frameBytes mpCodec healthMsg, [], none, none⟩
      = frameBytes mpCodec (NewHealthCheckResponse "healthy" "1.0.0" 7).message
    := by
  refine ⟨by decide, rfl, rfl, rfl, rfl, ?_⟩
  decide

/-- C3 — evaluation of dispatch at the unregistered type "bogus_type": the
lookup miss yields (without a Go error, so the session continues) only
the embedded Message of the 400 ErrorResponse; the full ErrorResponse
does carry code 400 and an error text naming bogus_type, but the message
written to the peer is exactly ⟨"7", "error", 7, []⟩ — type "error"
with an empty data map, carrying neither the code nor the error text —
and the session goes on to answer the next request on the same
connection. -/
theorem unknownType_error_fields_dropped :
    handleMessage defaultHandlers 7 bogusMsg
      = .ok (NewErrorResponse "unknown message type: bogus_type" 400
          "Unsupported message type" 7).message ∧
    (NewErrorResponse "unknown message type: bogus_type" 400
      "Unsupported message type" 7).code = 400 ∧
    (NewErrorResponse "unknown message type: bogus_type" 400
      "Unsupported message type" 7).error
        = "unknown message type: bogus_type" ∧
    (NewErrorResponse "unknown message type: bogus_type" 400
      "Unsupported message type" 7).message = ⟨"7", "error", 7, []⟩ ∧
    handleConnection debugCfg mpCodec defaultHandlers 7 false
        ⟨frameBytes mpCodec bogusMsg ++ frameBytes mpCodec healthMsg, [],
          none, none⟩
      = frameBytes mpCodec (⟨"7", "error", 7, []⟩ : Message)
        ++ frameBytes mpCodec
            (NewHealthCheckResponse "healthy" "1.0.0" 7).message := by
  refine ⟨by decide, rfl, rfl, by decide, ?_⟩
  decide

/-- C4 (amended) — The frame decoder of the ipc server reads exactly 4
header bytes then exactly `length` payload bytes: a well-formed frame is
consumed precisely; a stream shorter than the header, or a payload
shorter than the declared length, fails with the corresponding framing
error (headerRead / payloadRead, eof exactly when nothing was left);
payload bytes present but rejected by the deserializer fail with the
decode error, and the three error classes are pairwise distinct
constructors. (The universality over every code path of the system is
what the counterexample refutes: the second server variant consumes the
stream with no length header.) -/
theorem framing_discipline (cfg : IpcConfig) (codec : Codec) (now : Nat) :
    (∀ (m : Message) (t o : List Nat) (rd wd : Option Nat),
      codec.unmarshal (codec.marshal m) = some m →
      (codec.marshal m).length < 4294967296 →
      ∃ c2, readMessage cfg codec now ⟨frameBytes codec m ++ t, o, rd, wd⟩
          = .ok (m, c2) ∧ c2.input = t) ∧
    (∀ c : Conn, c.input.length < 4 →
      ∃ e, readMessage cfg codec now c = .error (.headerRead e)) ∧
    (∀ (L : Nat) (t o : List Nat) (rd wd : Option Nat),
      L < 4294967296 → t.length < L →
      ∃ e, readMessage cfg codec now ⟨putUint32BE L ++ t, o, rd, wd⟩
          = .error (.payloadRead e)) ∧
    (∀ (d t o : List Nat) (rd wd : Option Nat),
      codec.unmarshal d = none → d.length < 4294967296 →
      readMessage cfg codec now ⟨putUint32BE d.length ++ (d ++ t), o, rd, wd⟩
        = .error .unmarshal) ∧
    (∀ e1 e2 : IOErr,
      ReadMsgErr.headerRead e1 ≠ .unmarshal ∧
      ReadMsgErr.payloadRead e2 ≠ .unmarshal ∧
      ReadMsgErr.headerRead e1 ≠ .payloadRead e2) := by
  refine ⟨?_, ?_, ?_, ?_, ?_⟩
  · intro m t o rd wd hinv hlen
    exact ⟨_, readMessage_frame cfg codec now m t o rd wd hinv hlen, rfl⟩
  · intro c h
    obtain ⟨i, o, rd, wd⟩ := c
    refine ⟨if i.length = 0 then .eof else .unexpectedEOF, ?_⟩
    have hrf := readFull_short (n := 4) (s := i) h
    by_cases hdbg : cfg.debugMode = false <;> simp [readMessage, hdbg, hrf]
  · intro L t o rd wd hL hshort
    have h4 : readFull 4 (putUint32BE L ++ t) = .ok (putUint32BE L, t) := by
      have := readFull_exact (putUint32BE L) t
      simpa [putUint32BE_length] using this
    have hrf := readFull_short (n := L) (s := t) hshort
    refine ⟨if t.length = 0 then .eof else .unexpectedEOF, ?_⟩
    by_cases hdbg : cfg.debugMode = false <;>
      simp [readMessage, hdbg, h4, beUint32_putUint32BE L hL, hrf]
  · intro d t o rd wd hnone hdl
    have h4 : readFull 4 (putUint32BE d.length ++ (d ++ t))
        = .ok (putUint32BE d.length, d ++ t) := by
      have := readFull_exact (putUint32BE d.length) (d ++ t)
      simpa [putUint32BE_length] using this
    have hpay : readFull d.length (d ++ t) = .ok (d, t) := readFull_exact _ _
    by_cases hdbg : cfg.debugMode = false <;>
      simp [readMessage, hdbg, h4, beUint32_putUint32BE _ hdl, hpay, hnone]
  · intro e1 e2
    exact ⟨fun h => ReadMsgErr.noConfusion h,
      fun h => ReadMsgErr.noConfusion h,
      fun h => ReadMsgErr.noConfusion h⟩

theorem framing_discipline_witness :
    (([1, 2] : List Nat).length < 4 ∧
      ∃ e, readMessage debugCfg mpCodec 3 ⟨[1, 2], [], none, none⟩
        = .error (.headerRead e)) ∧
    (mpCodec.unmarshal [0] = none ∧
      readMessage debugCfg mpCodec 3
          ⟨putUint32BE ([0] : List Nat).length ++ ([0] ++ []), [], none, none⟩
        = .error .unmarshal) :=
  ⟨⟨by decide,
    (framing_discipline debugCfg mpCodec 3).2.1 ⟨[1, 2], [], none, none⟩
      (by decide)⟩,
   ⟨by decide,
    (framing_discipline debugCfg mpCodec 3).2.2.2.1 [0] [] [] none none
      (by decide) (by decide)⟩⟩

/-- C4 counterexample — the system does not use one framing discipline on
every code path: on the very byte stream that carries one well-formed
length-prefixed frame of a health_check message, the readMessage of the
ipc server decodes the message, while the readMessage of the second
server variant (unnamed/part_000), which applies the msgpack streaming
decoder directly to the stream, fails on the first length-header
byte. -/
theorem framing_discipline_counterexample :
    readMessage debugCfg mpCodec 7
        ⟨frameBytes mpCodec healthMsg, [], none, none⟩
      = .ok (healthMsg, ⟨[], [], none, none⟩) ∧
    readMessageV2 ⟨frameBytes mpCodec healthMsg, [], none, none⟩
      = .error () := by
  decide

/-- C6 counterexample — shutdown with one session still active: Shutdown
returns success (not a timeout-class failure) while the session set is
untouched and no session connection was force-closed, so the shutdown
path neither waits for active sessions nor force-closes them at a
deadline. -/
theorem shutdown_counterexample :
    (shutdownServer ⟨false, true, [0], []⟩).1 = .ok () ∧
    (shutdownServer ⟨false, true, [0], []⟩).2.activeSessions = [0] ∧
    (shutdownServer ⟨false, true, [0], []⟩).2.forceClosedConns = [] :=
  ⟨rfl, rfl, rfl⟩

/-- C6 (amended) — Stop cancels the shared context and closes the listener,
so no new connection is accepted, and Shutdown reports success as soon
as Stop returns: active sessions are left exactly as they were — none is
tracked, waited for, or force-closed, and no timeout-class failure is
produced on their account; a session that observes the cancellation
exits before starting another read, writing nothing further. -/
theorem shutdown_behaviour :
    (∀ s : RunState, shutdownServer s
      = (.ok (), { s with ctxCancelled := true, listenerOpen := false })) ∧
    (∀ (cfg : IpcConfig) (codec : Codec) (handlers : HandlerMap) (now : Nat)
      (c : Conn),
      handleConnection cfg codec handlers now true c = c.output) := by
  constructor
  · intro s; rfl
  · intro cfg codec handlers now c
    simp [handleConnection, handleConnLoop]

/-- C7 — Unix listener construction: a removal failure other than
"does not exist" aborts; so do a directory-creation failure and a bind
failure, each surfacing as an error from Start with no listener
installed; otherwise the pre-existing file at the path (if any) is
removed, the parent directory is ensured, the listener is bound at the
resolved path with unlink-on-close set, and the server records it. -/
theorem unixListener_contract (srv : IpcServer) (fs : FS) :
    (let sp := if srv.config.socketPath = "" then "/tmp/litebase.sock"
      else srv.config.socketPath
    (sp ∈ fs.removeFail → ∃ e, startListen srv fs = .error e) ∧
    (sp ∉ fs.removeFail → parentDir sp ∈ fs.mkdirFail →
      ∃ e, startListen srv fs = .error e) ∧
    (sp ∉ fs.removeFail → parentDir sp ∉ fs.mkdirFail → sp ∈ fs.bindFail →
      ∃ e, startListen srv fs = .error e) ∧
    (sp ∉ fs.removeFail → parentDir sp ∉ fs.mkdirFail → sp ∉ fs.bindFail →
      ∃ srv2 fs2, startListen srv fs = .ok (srv2, fs2) ∧
        srv2.listener = some ⟨sp, true⟩ ∧
        parentDir sp ∈ fs2.dirs ∧
        fs2.files = sp :: fs.files.erase sp)) := by
  intro sp
  refine ⟨?_, ?_, ?_, ?_⟩
  · intro hrm
    exact ⟨"failed to create listener: failed to remove existing socket",
      by simp [startListen, createUnixSocketListener, osRemove, sp, hrm]⟩
  · intro hrm hmk
    by_cases hex : sp ∈ fs.files <;>
      exact ⟨"failed to create listener: failed to create socket directory",
        by simp [startListen, createUnixSocketListener, osRemove, sp,
          hrm, hmk, hex]⟩
  · intro hrm hmk hbind
    by_cases hex : sp ∈ fs.files <;>
      exact ⟨"failed to create listener: failed to create Unix socket listener",
        by simp [startListen, createUnixSocketListener, osRemove, sp,
          hrm, hmk, hbind, hex]⟩
  · intro hrm hmk hbind
    by_cases hex : sp ∈ fs.files
    · refine ⟨{ srv with listener := some ⟨sp, true⟩ },
        { files := sp :: fs.files.erase sp
        , dirs := parentDir sp :: fs.dirs
        , removeFail := fs.removeFail
        , mkdirFail := fs.mkdirFail
        , bindFail := fs.bindFail }, ?_, rfl, by simp, rfl⟩
      simp [startListen, createUnixSocketListener, osRemove, sp, hrm, hmk,
        hbind, hex]
    · refine ⟨{ srv with listener := some ⟨sp, true⟩ },
        { files := sp :: fs.files.erase sp
        , dirs := parentDir sp :: fs.dirs
        , removeFail := fs.removeFail
        , mkdirFail := fs.mkdirFail
        , bindFail := fs.bindFail }, ?_, rfl, by simp, rfl⟩
      have hsame : fs.files.erase sp = fs.files := List.erase_of_not_mem hex
      simp [startListen, createUnixSocketListener, osRemove, sp, hrm, hmk,
        hbind, hex, hsame]

theorem unixListener_contract_witness :
    (let fs0 : FS := ⟨["/tmp/litebase.sock"], ["/tmp"], [], [], []⟩
    let srv0 : IpcServer := ⟨debugCfg, defaultHandlers, none⟩
    "/tmp/litebase.sock" ∉ fs0.removeFail ∧
    parentDir "/tmp/litebase.sock" ∉ fs0.mkdirFail ∧
    "/tmp/litebase.sock" ∉ fs0.bindFail ∧
    ∃ srv2 fs2, startListen srv0 fs0 = .ok (srv2, fs2) ∧
      srv2.listener = some ⟨"/tmp/litebase.sock", true⟩ ∧
      parentDir "/tmp/litebase.sock" ∈ fs2.dirs ∧
      fs2.files = "/tmp/litebase.sock" :: fs0.files.erase "/tmp/litebase.sock")
    := by
  intro fs0 srv0
  refine ⟨by decide, by decide, by decide, ?_⟩
  exact (unixListener_contract srv0 fs0).2.2.2 (by decide) (by decide)
    (by decide)

/-- C9 — Server construction fails exactly when the Logger of the configuration
is nil: for both ipc.New and server.New, a nil logger produces the
"logger is required" failure and no server, and any configuration with a
present logger produces a server and no error. -/
theorem new_fails_iff_logger_nil (c : IpcConfig) (sc : ServerConfig) :
    ((∃ s, ipcNew c = .ok s) ↔ c.logger.isSome = true) ∧
    ((∃ s, serverNew sc = .ok s) ↔ sc.logger.isSome = true) ∧
    (c.logger = none → ipcNew c = .error "logger is required") ∧
    (sc.logger = none → serverNew sc = .error "logger is required") := by
  refine ⟨?_, ?_, ?_, ?_⟩
  · cases hl : c.logger with
    | none => simp [ipcNew, hl]
    | some l =>
        refine ⟨fun _ => rfl, fun _ => ?_⟩
        unfold ipcNew
        rw [hl]
        exact ⟨_, rfl⟩
  · cases hl : sc.logger with
    | none => simp [serverNew, hl]
    | some l =>
        refine ⟨fun _ => rfl, fun _ => ?_⟩
        unfold serverNew ipcNew
        rw [hl]
        exact ⟨_, rfl⟩
  · intro hl; simp [ipcNew, hl]
  · intro hl; simp [serverNew, hl]

theorem new_fails_iff_logger_nil_witness :
    (∃ s, ipcNew debugCfg = .ok s) ∧
    (∃ s, serverNew ⟨"", "", 0, some Logger.mk, false⟩ = .ok s) ∧
    ((⟨"", "", none, false, 0, 0⟩ : IpcConfig).logger = none ∧
      ipcNew ⟨"", "", none, false, 0, 0⟩ = .error "logger is required") ∧
    ((⟨"", "", 0, none, false⟩ : ServerConfig).logger = none ∧
      serverNew ⟨"", "", 0, none, false⟩ = .error "logger is required") :=
  ⟨(new_fails_iff_logger_nil debugCfg ⟨"", "", 0, some Logger.mk, false⟩).1.mpr
      rfl,
   (new_fails_iff_logger_nil debugCfg ⟨"", "", 0, some Logger.mk, false⟩).2.1.mpr
      rfl,
   ⟨rfl, (new_fails_iff_logger_nil ⟨"", "", none, false, 0, 0⟩
      ⟨"", "", 0, none, false⟩).2.2.1 rfl⟩,
   ⟨rfl, (new_fails_iff_logger_nil ⟨"", "", none, false, 0, 0⟩
      ⟨"", "", 0, none, false⟩).2.2.2 rfl⟩⟩

/-- C10 — Timeout defaults and deadline policy: ipc.New replaces a zero
ReadTimeout or WriteTimeout with 30 seconds; a successful readMessage
sets the read deadline of the connection to now + ReadTimeout exactly when
DebugMode is false and never touches the write deadline; writeMessage
sets the write deadline to now + WriteTimeout exactly when DebugMode is
false and never touches the read deadline; with DebugMode true neither
call changes any deadline. -/
theorem timeout_defaults_and_deadlines (c cfg : IpcConfig) (codec : Codec)
    (now : Nat) (conn conn2 : Conn) (m msg : Message) :
    (∀ l, c.logger = some l → ∃ s, ipcNew c = .ok s ∧
      s.config.readTimeout
        = (if c.readTimeout = 0 then 30 * timeSecond else c.readTimeout) ∧
      s.config.writeTimeout
        = (if c.writeTimeout = 0 then 30 * timeSecond else c.writeTimeout)) ∧
    (readMessage cfg codec now conn = .ok (msg, conn2) →
      conn2.readDeadline = (if cfg.debugMode = false then
        some (now + cfg.readTimeout) else conn.readDeadline) ∧
      conn2.writeDeadline = conn.writeDeadline) ∧
    ((writeMessage cfg codec now conn m).writeDeadline
      = (if cfg.debugMode = false then some (now + cfg.writeTimeout)
          else conn.writeDeadline)) ∧
    ((writeMessage cfg codec now conn m).readDeadline = conn.readDeadline) := by
  refine ⟨?_, ?_, ?_, ?_⟩
  · intro l hl
    unfold ipcNew
    rw [hl]
    refine ⟨_, rfl, ?_, ?_⟩ <;>
      by_cases hr : c.readTimeout = 0 <;>
      by_cases hw : c.writeTimeout = 0 <;>
      simp [hr, hw]
  · intro h
    have := readMessage_ok_inv cfg codec now conn msg conn2 h
    exact ⟨this.2.2.1, this.2.2.2⟩
  · rw [writeMessage_eq]
  · rw [writeMessage_eq]

theorem timeout_defaults_and_deadlines_witness :
    (prodCfg0.logger = some Logger.mk ∧
      ∃ s, ipcNew prodCfg0 = .ok s ∧
        s.config.readTimeout = (if prodCfg0.readTimeout = 0 then
          30 * timeSecond else prodCfg0.readTimeout) ∧
        s.config.writeTimeout = (if prodCfg0.writeTimeout = 0 then
          30 * timeSecond else prodCfg0.writeTimeout)) ∧
    (readMessage prodCfg mpCodec 7
        ⟨frameBytes mpCodec healthMsg, [], none, none⟩
      = .ok (healthMsg, ⟨[], [], some 12, none⟩) ∧
      (⟨[], [], some 12, none⟩ : Conn).readDeadline
        = (if prodCfg.debugMode = false then some (7 + prodCfg.readTimeout)
            else (⟨frameBytes mpCodec healthMsg, [], none, none⟩ : Conn).readDeadline) ∧
      (⟨[], [], some 12, none⟩ : Conn).writeDeadline
        = (⟨frameBytes mpCodec healthMsg, [], none, none⟩ : Conn).writeDeadline)
    := by
  constructor
  · exact ⟨rfl, (timeout_defaults_and_deadlines prodCfg0 prodCfg mpCodec 7
      ⟨[], [], none, none⟩ ⟨[], [], none, none⟩ healthMsg healthMsg).1
        Logger.mk rfl⟩
  · have hread : readMessage prodCfg mpCodec 7
        ⟨frameBytes mpCodec healthMsg, [], none, none⟩
      = .ok (healthMsg, ⟨[], [], some 12, none⟩) := by decide
    exact ⟨hread, (timeout_defaults_and_deadlines prodCfg0 prodCfg mpCodec 7
      ⟨frameBytes mpCodec healthMsg, [], none, none⟩ ⟨[], [], some 12, none⟩
      healthMsg healthMsg).2.1 hread⟩
